import Mathlib

/-!
Verification of the duty-log synthesizer `generate_eld_logs` from
`trip_planner/trips/utils.py`.

The embedding translates the Python function over exact rationals (`ℚ`):
Python float literals such as `0.01`, `0.1`, `0.5` become the corresponding
rationals, `round(x, 1)` becomes rounding to tenths (`round1`), and
`int(x)` on a non-negative value becomes the floor.  Every exception the
Python function can surface is a `ValueError` carrying a message string;
the error channel is therefore `PyErr`, a pair of the (single) exception
class and the message.  The outer `except` handlers of the source rewrap
inner `ValueError`s with the prefix `Error generating ELD logs: `, and the
`KeyError` handler produces `Invalid route data: missing '<field>'`; the
message definitions below carry those final, rewrapped strings.
-/

set_option maxRecDepth 100000

namespace TripPlanner

/-- The five duty activity kinds emitted by `generate_eld_logs`
(`brk` models the Python string `"break"`). -/
inductive ActivityType where
  | pickup
  | driving
  | brk
  | fuel
  | dropoff
deriving DecidableEq

/-- One timed activity record: the dictionaries
`{"type": ..., "start": ..., "end": ..., "miles": ...}` built by
`generate_eld_logs`.  `stop` models the Python key `"end"`; `miles` is
meaningful only for `driving` activities and is `0` elsewhere (the Python
dictionaries omit the key there). -/
structure Activity where
  type : ActivityType
  start : ℚ
  stop : ℚ
  miles : ℚ
deriving DecidableEq

/-- One `daily_log` dictionary: `{"day": ..., "activities": [...]}`. -/
structure DayLog where
  day : ℕ
  activities : List Activity
deriving DecidableEq

/-- The exception class of every failure `generate_eld_logs` can raise:
the source raises only `ValueError` (the `KeyError` and generic handlers
both rewrap into `ValueError`). -/
inductive ExcClass where
  | valueError
deriving DecidableEq

/-- A raised Python exception: its class together with its message. -/
structure PyErr where
  cls : ExcClass
  msg : String
deriving DecidableEq

/-- The `route_data` dictionary as consumed by `generate_eld_logs`: either
field may be absent (a missing key raises `KeyError` in the source). -/
structure RouteData where
  distance_miles : Option ℚ
  duration_hours : Option ℚ

/-- The mutable per-day accumulators of the loop body:
`daily_log["activities"]`, `current_time`, `on_duty_hours`. -/
structure SimState where
  acts : List Activity
  time : ℚ
  onDuty : ℚ

/-- What one iteration of the per-day loop produces: the day's activity
list, `daily_miles`, the day's total `on_duty_hours`, and whether the
dropoff branch ran (which sets `remaining_miles = 0` in the source). -/
structure DayResult where
  activities : List Activity
  dailyMiles : ℚ
  onDuty : ℚ
  milesDone : Bool

/-- Python `round(x, 1)`: round to one decimal place.  (Ties are modeled
with Mathlib `round`; the source's float ties are representation-dependent
and no claim hinges on a tie.) -/
def round1 (x : ℚ) : ℚ := (round (x * 10) : ℤ) / 10

/-- Appending one activity dictionary and advancing `current_time` and
`on_duty_hours` by its duration — the shape of every append in the
source's loop body. -/
def appendAct (s : SimState) (ty : ActivityType) (dur m : ℚ) : SimState :=
  ⟨s.acts ++ [⟨ty, s.time, s.time + dur, m⟩], s.time + dur, s.onDuty + dur⟩

/-- The pickup block: a fixed 1-hour activity on day 0 only. -/
def pickupStep (day : ℕ) (s : SimState) : SimState :=
  if day = 0 then appendAct s ActivityType.pickup 1 0 else s

/-- The daily-driving computation of the source: the `min`, the round to
one decimal floored at `0.1` when miles remain, `daily_miles`, and the
terminal clamp when `daily_miles > remaining_miles`.  Returns
`(daily_driving_hours, daily_miles)`. -/
def drivingHours (rm rh od : ℚ) : ℚ × ℚ :=
  let dh0 := min 11 (min (rh - od) (rm / 60))
  let dh1 := if 0 < rm then max (round1 dh0) (1 / 10) else 0
  let dm1 := round1 (dh1 * 60)
  if rm < dm1 then (rm / 60, rm) else (dh1, dm1)

/-- The driving block: appended only when `daily_driving_hours > 0`. -/
def driveStep (dh dm : ℚ) (s : SimState) : SimState :=
  if 0 < dh then appendAct s ActivityType.driving dh dm else s

/-- The break block: 0.5 hours when driving exceeded 8 hours and the
remaining cycle budget can absorb it. -/
def breakStep (dh rh : ℚ) (s : SimState) : SimState :=
  if 8 < dh ∧ 1 / 2 ≤ rh - s.onDuty then appendAct s ActivityType.brk (1 / 2) 0 else s

/-- Number of stops, `fuel_stops = int(daily_miles / 1000)`, guarded by
`daily_miles > 0`. -/
def nFuelStops (dm : ℚ) : ℕ :=
  if 0 < dm then (Int.floor (dm / 1000)).toNat else 0

/-- The fuel-stop `for` loop: each stop appends 0.25 hours if the budget
still allows it, otherwise that stop is skipped. -/
def fuelSteps (rh : ℚ) : ℕ → SimState → SimState
  | 0, s => s
  | n + 1, s =>
      fuelSteps rh n
        (if 1 / 4 ≤ rh - s.onDuty then appendAct s ActivityType.fuel (1 / 4) 0 else s)

/-- The dropoff block: runs when the day's driving reduces the remaining
distance to within tolerance and one more hour of budget remains; the
returned flag records that `remaining_miles` was set to `0`. -/
def dropStep (rm dm rh : ℚ) (s : SimState) : SimState × Bool :=
  if rm - dm ≤ 1 / 100 ∧ 1 ≤ rh - s.onDuty then (appendAct s ActivityType.dropoff 1 0, true)
  else (s, false)

/-- One iteration of the per-day loop body of `generate_eld_logs`, for
`current_day = day`, `remaining_miles = rm`, `remaining_hours = rh`. -/
def simDay (day : ℕ) (rm rh : ℚ) : DayResult :=
  let s1 := pickupStep day ⟨[], 8, 0⟩
  let p := drivingHours rm rh s1.onDuty
  let s2 := driveStep p.1 p.2 s1
  let s3 := breakStep p.1 rh s2
  let s4 := fuelSteps rh (nFuelStops p.2) s3
  let s5 := dropStep rm p.2 rh s4
  ⟨s5.1.acts, p.2, s5.1.onDuty, s5.2⟩

/-- Message of the rewrapped `KeyError` for a missing distance field. -/
def missingDistanceMsg : String := "Invalid route data: missing \x27distance_miles\x27"

/-- Message of the rewrapped `KeyError` for a missing duration field. -/
def missingDurationMsg : String := "Invalid route data: missing \x27duration_hours\x27"

/-- Rewrapped message of the pre-loop cycle-exhaustion failure. -/
def noRemainingMsg : String :=
  "Error generating ELD logs: No remaining hours in cycle to complete trip"

/-- Rewrapped message of the 100-day iteration-ceiling failure. -/
def tooManyDaysMsg : String :=
  "Error generating ELD logs: Too many days required (>100), check cycle hours or route data"

/-- Rewrapped message of the post-loop leftover-distance failure. -/
def exceedsCycleMsg : String :=
  "Error generating ELD logs: Trip exceeds available cycle hours"

/-- Renumbering `log["day"] = i + 1` over the retained day logs. -/
def renumberFrom : ℕ → List DayLog → List DayLog
  | _, [] => []
  | i, lg :: ls => ⟨i + 1, lg.activities⟩ :: renumberFrom (i + 1) ls

/-- Appending the day, `logs.append(daily_log)`, guarded by
`if daily_log["activities"]`. -/
def dayAppend (day : ℕ) (r : DayResult) (logs : List DayLog) : List DayLog :=
  if r.activities.isEmpty then logs else logs ++ [⟨day + 1, r.activities⟩]

/-- Update `remaining_miles = max(remaining_miles - daily_miles, 0)`, where the
dropoff branch already set `remaining_miles` to `0` when it ran. -/
def nextMiles (rm : ℚ) (r : DayResult) : ℚ :=
  max ((if r.milesDone then 0 else rm) - r.dailyMiles) 0

/-- The `while remaining_miles > 0.01 and remaining_hours > 0` loop of the
source, followed by the post-loop leftover check and the renumbering.  The
source bounds the loop by raising `Too many days required` as soon as
`current_day >= 100`; here `fuel` (always `100 - day` at every call
reachable from `generate_eld_logs`, which starts at `100` with `day = 0`)
makes that bound structural, so the zero-fuel equation is exactly the
day-guard's error (at fuel `0` the loop has run 100 times and
`current_day = 100`). -/
def loop : ℕ → ℚ → ℚ → ℕ → List DayLog → Except PyErr (List DayLog)
  | 0, rm, rh, _, logs =>
      if 1 / 100 < rm ∧ 0 < rh then Except.error ⟨ExcClass.valueError, tooManyDaysMsg⟩
      else if 1 / 100 < rm then Except.error ⟨ExcClass.valueError, exceedsCycleMsg⟩
      else Except.ok (renumberFrom 0 logs)
  | f + 1, rm, rh, day, logs =>
      if 1 / 100 < rm ∧ 0 < rh then
        if 100 ≤ day then Except.error ⟨ExcClass.valueError, tooManyDaysMsg⟩
        else
          loop f (nextMiles rm (simDay day rm rh)) (rh - (simDay day rm rh).onDuty)
            (day + 1) (dayAppend day (simDay day rm rh) logs)
      else if 1 / 100 < rm then Except.error ⟨ExcClass.valueError, exceedsCycleMsg⟩
      else Except.ok (renumberFrom 0 logs)

/-- Top level of `generate_eld_logs(route_data, cycle_hours_used)`: field access (a
missing key fails first), the pre-loop cycle check, then the loop. -/
def generate_eld_logs (route_data : RouteData) (cycle_hours_used : ℚ) :
    Except PyErr (List DayLog) :=
  match route_data.distance_miles with
  | Option.none => Except.error ⟨ExcClass.valueError, missingDistanceMsg⟩
  | Option.some total_distance =>
    match route_data.duration_hours with
    | Option.none => Except.error ⟨ExcClass.valueError, missingDurationMsg⟩
    | Option.some _ =>
      let remaining_hours := 70 - cycle_hours_used
      if remaining_hours ≤ 0 then Except.error ⟨ExcClass.valueError, noRemainingMsg⟩
      else loop 100 total_distance remaining_hours 0 []

/-- The `miles` contribution of one activity to the driving total. -/
def actDrivingMiles (a : Activity) : ℚ :=
  if a.type = ActivityType.driving then a.miles else 0

/-- Sum of `miles` over the `driving` activities of one list. -/
def listDrivingMiles (l : List Activity) : ℚ := (l.map actDrivingMiles).sum

/-- Sum of `miles` over all `driving` activities of a plan. -/
def drivingMiles (logs : List DayLog) : ℚ :=
  (logs.map (fun lg => listDrivingMiles lg.activities)).sum

/-- Wall-clock duration `end - start` of one activity. -/
def actDuration (a : Activity) : ℚ := a.stop - a.start

/-- Sum of all activity durations of a plan. -/
def totalDuration (logs : List DayLog) : ℚ :=
  (logs.map (fun lg => (lg.activities.map actDuration).sum)).sum

/-- The day logs of a successful result (`[]` on an error). -/
def okLogs (e : Except PyErr (List DayLog)) : List DayLog :=
  (Except.toOption e).getD []

/-- The exception class of a failed result. -/
def errClass : Except PyErr (List DayLog) → Option ExcClass
  | Except.error e => Option.some e.cls
  | Except.ok _ => Option.none

/-- Timeline predicate `chainTo t0 t l`: the activities of `l` occur in order starting no
earlier than `t0`, each with `start ≤ stop`, each starting no earlier than
its predecessor ended, all ending by `t`. -/
def chainTo (t0 t : ℚ) : List Activity → Prop
  | [] => t0 ≤ t
  | a :: as => t0 ≤ a.start ∧ a.start ≤ a.stop ∧ chainTo a.stop t as

/-- The plan the code actually returns for the Scenario-A input
(`distance_miles = 50`, `duration_hours = 1`, `cycle_hours_used = 0`):
day 1 carries pickup 8–9 and 48 miles of driving 9–9.8 (the 50/60 h
allotment rounds down to 0.8 h), and the remaining 2 miles spill into a
second day followed by the dropoff. -/
def c2Out : List DayLog :=
  [⟨1, [⟨ActivityType.pickup, 8, 9, 0⟩, ⟨ActivityType.driving, 9, 49 / 5, 48⟩]⟩,
   ⟨2, [⟨ActivityType.driving, 8, 241 / 30, 2⟩,
        ⟨ActivityType.dropoff, 241 / 30, 271 / 30, 0⟩]⟩]

/-- The plan returned for `distance_miles = 5`, `duration_hours = 1`,
`cycle_hours_used = 69.5`: one day with a 1-hour pickup and a 5-mile
drive, and no dropoff. -/
def c5Out : List DayLog :=
  [⟨1, [⟨ActivityType.pickup, 8, 9, 0⟩, ⟨ActivityType.driving, 9, 109 / 12, 5⟩]⟩]

/-! ### Arithmetic facts about `round1` and the daily driving computation -/

theorem round1_intCast (n : ℤ) : round1 (n : ℚ) = n := by
  unfold round1
  rw [show ((n : ℚ) * 10) = ((n * 10 : ℤ) : ℚ) by push_cast; ring, round_intCast]
  push_cast
  ring

theorem round1_mono {x y : ℚ} (h : x ≤ y) : round1 x ≤ round1 y := by
  unfold round1
  have hr : round (x * 10) ≤ round (y * 10) := by
    rw [round_eq, round_eq]
    exact Int.floor_mono (by linarith)
  have hr2 : ((round (x * 10) : ℤ) : ℚ) ≤ ((round (y * 10) : ℤ) : ℚ) := by exact_mod_cast hr
  linarith

/-- Rounding to tenths fixes multiples of one tenth (used for
`daily_driving_hours * 60`). -/
theorem round1_tenth (k : ℤ) : round1 ((k : ℚ) / 10 * 60) = (k : ℚ) / 10 * 60 := by
  rw [show ((k : ℚ) / 10 * 60) = ((6 * k : ℤ) : ℚ) by push_cast; ring, round1_intCast]

/-- The floored-and-rounded driving allotment is an integer number of tenths. -/
theorem maxr_rep (x : ℚ) : ∃ k : ℤ, 1 ≤ k ∧ max (round1 x) (1 / 10) = (k : ℚ) / 10 := by
  rcases le_total (round1 x) (1 / 10) with h | h
  · exact ⟨1, le_refl 1, by rw [max_eq_right h]; norm_num⟩
  · refine ⟨round (x * 10), ?_, by rw [max_eq_left h]; rfl⟩
    have h2 : (1 : ℚ) / 10 ≤ (round (x * 10) : ℚ) / 10 := h
    have h3 : (1 : ℚ) ≤ (round (x * 10) : ℚ) := by linarith
    exact_mod_cast h3

theorem maxr_le (x : ℚ) (h : x ≤ 11) : max (round1 x) (1 / 10) ≤ 11 := by
  refine max_le ?_ (by norm_num)
  have h1 : round1 x ≤ round1 ((11 : ℤ) : ℚ) := round1_mono (by exact_mod_cast h)
  rw [round1_intCast] at h1
  exact_mod_cast h1

/-- Bundle of bounds on `(daily_driving_hours, daily_miles)`: the hours never
exceed 11, the miles never exceed `remaining_miles` nor 660, and both are
positive whenever miles remain. -/
theorem drivingHours_props (rm rh od : ℚ) :
    (drivingHours rm rh od).1 ≤ 11 ∧
    (drivingHours rm rh od).2 ≤ rm ∧
    (drivingHours rm rh od).2 ≤ 660 ∧
    (0 < rm → 0 < (drivingHours rm rh od).1 ∧ 0 < (drivingHours rm rh od).2) := by
  simp only [drivingHours]
  by_cases hrm : 0 < rm
  · simp only [if_pos hrm]
    obtain ⟨k, hk1, hk⟩ := maxr_rep (min 11 (min (rh - od) (rm / 60)))
    rw [hk, round1_tenth k]
    have hkQ : (1 : ℚ) ≤ (k : ℚ) := by exact_mod_cast hk1
    have hk11 : (k : ℚ) / 10 ≤ 11 := by
      rw [← hk]
      exact maxr_le _ (min_le_left _ _)
    split_ifs with hclamp
    · refine ⟨by linarith, le_refl rm, by linarith, fun h => ⟨by positivity, h⟩⟩
    · push_neg at hclamp
      exact ⟨hk11, hclamp, by linarith, fun _ => ⟨by linarith, by linarith⟩⟩
  · simp only [if_neg hrm]
    have h0 : round1 (0 * 60) = 0 := by
      rw [show ((0 : ℚ) * 60) = (((0 : ℤ)) : ℚ) by norm_num, round1_intCast]
      norm_num
    rw [h0]
    push_neg at hrm
    split_ifs with hclamp
    · refine ⟨by linarith, le_refl rm, by linarith, fun h => absurd h (by linarith)⟩
    · push_neg at hclamp
      exact ⟨by norm_num, hclamp, by norm_num, fun h => absurd h (by linarith)⟩

/-! ### The within-a-day timeline: activities form a gap-free forward chain -/

theorem chainTo_snoc {t0 t : ℚ} {l : List Activity} (hc : chainTo t0 t l)
    {u v : ℚ} (hu : t ≤ u) (huv : u ≤ v) (ty : ActivityType) (m : ℚ) :
    chainTo t0 v (l ++ [⟨ty, u, v, m⟩]) := by
  induction l generalizing t0 with
  | nil => exact ⟨le_trans hc hu, huv, le_refl v⟩
  | cons a as ih =>
    obtain ⟨h1, h2, h3⟩ := hc
    exact ⟨h1, h2, ih h3⟩

theorem appendAct_chain {t0 : ℚ} {s : SimState} (hc : chainTo t0 s.time s.acts)
    {dur : ℚ} (hd : 0 ≤ dur) (ty : ActivityType) (m : ℚ) :
    chainTo t0 (appendAct s ty dur m).time (appendAct s ty dur m).acts := by
  have h : chainTo t0 (s.time + dur) (s.acts ++ [⟨ty, s.time, s.time + dur, m⟩]) :=
    chainTo_snoc hc (le_refl s.time) (by linarith) ty m
  exact h

theorem pickupStep_chain {t0 : ℚ} {s : SimState} (day : ℕ)
    (hc : chainTo t0 s.time s.acts) :
    chainTo t0 (pickupStep day s).time (pickupStep day s).acts := by
  unfold pickupStep
  split_ifs
  · exact appendAct_chain hc (by norm_num) _ _
  · exact hc

theorem driveStep_chain {t0 dh dm : ℚ} {s : SimState}
    (hc : chainTo t0 s.time s.acts) :
    chainTo t0 (driveStep dh dm s).time (driveStep dh dm s).acts := by
  unfold driveStep
  split_ifs with h
  · exact appendAct_chain hc (le_of_lt h) _ _
  · exact hc

theorem breakStep_chain {t0 dh rh : ℚ} {s : SimState}
    (hc : chainTo t0 s.time s.acts) :
    chainTo t0 (breakStep dh rh s).time (breakStep dh rh s).acts := by
  unfold breakStep
  split_ifs
  · exact appendAct_chain hc (by norm_num) _ _
  · exact hc

theorem fuelSteps_chain {t0 rh : ℚ} (n : ℕ) :
    ∀ {s : SimState}, chainTo t0 s.time s.acts →
      chainTo t0 (fuelSteps rh n s).time (fuelSteps rh n s).acts := by
  induction n with
  | zero => intro s hc; exact hc
  | succ k ih =>
    intro s hc
    simp only [fuelSteps]
    split_ifs
    · exact ih (appendAct_chain hc (by norm_num) _ _)
    · exact ih hc

theorem dropStep_chain {t0 rm dm rh : ℚ} {s : SimState}
    (hc : chainTo t0 s.time s.acts) :
    chainTo t0 (dropStep rm dm rh s).1.time (dropStep rm dm rh s).1.acts := by
  unfold dropStep
  split_ifs
  · exact appendAct_chain hc (by norm_num) _ _
  · exact hc

/-- The activity list produced for one day is a chain starting at 08:00. -/
theorem simDay_chain (day : ℕ) (rm rh : ℚ) :
    ∃ t, chainTo 8 t (simDay day rm rh).activities := by
  simp only [simDay]
  exact ⟨_, dropStep_chain (fuelSteps_chain _
    (breakStep_chain (driveStep_chain (pickupStep_chain day (le_refl (8 : ℚ))))))⟩

theorem chainTo_start_le {t0 t : ℚ} :
    ∀ {l : List Activity}, chainTo t0 t l → ∀ a ∈ l, t0 ≤ a.start := by
  intro l
  induction l generalizing t0 with
  | nil => intro _ a ha; cases ha
  | cons b bs ih =>
    intro hc a ha
    obtain ⟨h1, h2, h3⟩ := hc
    rcases List.mem_cons.mp ha with rfl | ha2
    · exact h1
    · exact le_trans (le_trans h1 h2) (ih h3 a ha2)

theorem chainTo_le_stop {t0 t : ℚ} :
    ∀ {l : List Activity}, chainTo t0 t l → ∀ a ∈ l, a.start ≤ a.stop := by
  intro l
  induction l generalizing t0 with
  | nil => intro _ a ha; cases ha
  | cons b bs ih =>
    intro hc a ha
    obtain ⟨_, h2, h3⟩ := hc
    rcases List.mem_cons.mp ha with rfl | ha2
    · exact h2
    · exact ih h3 a ha2

theorem chainTo_chain' {t0 t : ℚ} :
    ∀ {l : List Activity}, chainTo t0 t l →
      List.Chain' (fun a b => a.stop ≤ b.start) l := by
  intro l
  induction l generalizing t0 with
  | nil => intro _; exact List.chain'_nil
  | cons b bs ih =>
    intro hc
    obtain ⟨_, _, h3⟩ := hc
    cases bs with
    | nil => simp
    | cons c cs =>
      rw [List.chain'_cons]
      exact ⟨h3.1, ih h3⟩

theorem chainTo_pairwise {t0 t : ℚ} :
    ∀ {l : List Activity}, chainTo t0 t l →
      List.Pairwise (fun a b => a.start ≤ b.start) l := by
  intro l
  induction l generalizing t0 with
  | nil => intro _; exact List.Pairwise.nil
  | cons b bs ih =>
    intro hc
    obtain ⟨_, h2, h3⟩ := hc
    refine List.Pairwise.cons (fun a ha => ?_) (ih h3)
    exact le_trans h2 (chainTo_start_le h3 a ha)

/-! ### What kinds of activities each step can add -/

theorem mem_appendAct {a : Activity} {s : SimState} {ty : ActivityType} {dur m : ℚ}
    (ha : a ∈ (appendAct s ty dur m).acts) :
    a ∈ s.acts ∨ (a.type = ty ∧ actDuration a = dur ∧ a.miles = m) := by
  simp only [appendAct, List.mem_append, List.mem_singleton] at ha
  rcases ha with h | rfl
  · exact Or.inl h
  · right
    refine ⟨rfl, ?_, rfl⟩
    show s.time + dur - s.time = dur
    ring

theorem mem_pickupStep {a : Activity} {day : ℕ} {s : SimState}
    (ha : a ∈ (pickupStep day s).acts) : a ∈ s.acts ∨ a.type = ActivityType.pickup := by
  unfold pickupStep at ha
  split_ifs at ha
  · rcases mem_appendAct ha with h | ⟨h, _⟩
    exacts [Or.inl h, Or.inr h]
  · exact Or.inl ha

theorem mem_driveStep {a : Activity} {dh dm : ℚ} {s : SimState}
    (ha : a ∈ (driveStep dh dm s).acts) :
    a ∈ s.acts ∨ (a.type = ActivityType.driving ∧ actDuration a = dh ∧ a.miles = dm) := by
  unfold driveStep at ha
  split_ifs at ha
  · exact mem_appendAct ha
  · exact Or.inl ha

theorem mem_breakStep {a : Activity} {dh rh : ℚ} {s : SimState}
    (ha : a ∈ (breakStep dh rh s).acts) : a ∈ s.acts ∨ a.type = ActivityType.brk := by
  unfold breakStep at ha
  split_ifs at ha
  · rcases mem_appendAct ha with h | ⟨h, _⟩
    exacts [Or.inl h, Or.inr h]
  · exact Or.inl ha

theorem mem_fuelSteps {a : Activity} {rh : ℚ} (n : ℕ) :
    ∀ {s : SimState}, a ∈ (fuelSteps rh n s).acts →
      a ∈ s.acts ∨ a.type = ActivityType.fuel := by
  induction n with
  | zero => intro s ha; exact Or.inl ha
  | succ k ih =>
    intro s ha
    simp only [fuelSteps] at ha
    rcases ih ha with h | h
    · split_ifs at h
      · rcases mem_appendAct h with h2 | ⟨h2, _⟩
        exacts [Or.inl h2, Or.inr h2]
      · exact Or.inl h
    · exact Or.inr h

theorem mem_dropStep {a : Activity} {rm dm rh : ℚ} {s : SimState}
    (ha : a ∈ (dropStep rm dm rh s).1.acts) :
    a ∈ s.acts ∨ a.type = ActivityType.dropoff := by
  unfold dropStep at ha
  split_ifs at ha
  · rcases mem_appendAct ha with h | ⟨h, _⟩
    exacts [Or.inl h, Or.inr h]
  · exact Or.inl ha

/-! ### Driving-miles accounting for one day -/

theorem listDrivingMiles_append (l : List Activity) (a : Activity) :
    listDrivingMiles (l ++ [a]) = listDrivingMiles l + actDrivingMiles a := by
  simp [listDrivingMiles]

theorem listDM_appendAct_ne {s : SimState} {ty : ActivityType} {dur m : ℚ}
    (h : ty ≠ ActivityType.driving) :
    listDrivingMiles (appendAct s ty dur m).acts = listDrivingMiles s.acts := by
  show listDrivingMiles (s.acts ++ [⟨ty, s.time, s.time + dur, m⟩]) = _
  rw [listDrivingMiles_append]
  simp [actDrivingMiles, h]

theorem listDM_pickupStep (day : ℕ) (s : SimState) :
    listDrivingMiles (pickupStep day s).acts = listDrivingMiles s.acts := by
  unfold pickupStep
  split_ifs
  · exact listDM_appendAct_ne (by simp)
  · rfl

theorem listDM_driveStep {dh : ℚ} (dm : ℚ) (s : SimState) (h : 0 < dh) :
    listDrivingMiles (driveStep dh dm s).acts = listDrivingMiles s.acts + dm := by
  unfold driveStep
  rw [if_pos h]
  show listDrivingMiles (s.acts ++ [⟨ActivityType.driving, s.time, s.time + dh, dm⟩]) = _
  rw [listDrivingMiles_append]
  simp [actDrivingMiles]

theorem listDM_breakStep (dh rh : ℚ) (s : SimState) :
    listDrivingMiles (breakStep dh rh s).acts = listDrivingMiles s.acts := by
  unfold breakStep
  split_ifs
  · exact listDM_appendAct_ne (by simp)
  · rfl

theorem listDM_fuelSteps (rh : ℚ) (n : ℕ) :
    ∀ s : SimState, listDrivingMiles (fuelSteps rh n s).acts = listDrivingMiles s.acts := by
  induction n with
  | zero => intro s; rfl
  | succ k ih =>
    intro s
    simp only [fuelSteps]
    rw [ih]
    split_ifs
    · exact listDM_appendAct_ne (by simp)
    · rfl

theorem listDM_dropStep (rm dm rh : ℚ) (s : SimState) :
    listDrivingMiles (dropStep rm dm rh s).1.acts = listDrivingMiles s.acts := by
  unfold dropStep
  split_ifs
  · exact listDM_appendAct_ne (by simp)
  · rfl

/-! ### Per-day facts about `simDay` -/

theorem simDay_dailyMiles (day : ℕ) (rm rh : ℚ) :
    (simDay day rm rh).dailyMiles =
      (drivingHours rm rh (pickupStep day ⟨[], 8, 0⟩).onDuty).2 := rfl

theorem simDay_miles_le (day : ℕ) (rm rh : ℚ) : (simDay day rm rh).dailyMiles ≤ rm := by
  rw [simDay_dailyMiles]
  exact (drivingHours_props _ _ _).2.1

theorem simDay_pos_miles (day : ℕ) (rm rh : ℚ) (h : 0 < rm) :
    0 < (simDay day rm rh).dailyMiles := by
  rw [simDay_dailyMiles]
  exact ((drivingHours_props _ _ _).2.2.2 h).2

/-- The `driving` activities of a day carry exactly `daily_miles`. -/
theorem simDay_listDM (day : ℕ) (rm rh : ℚ) (h : 0 < rm) :
    listDrivingMiles (simDay day rm rh).activities = (simDay day rm rh).dailyMiles := by
  simp only [simDay]
  rw [listDM_dropStep, listDM_fuelSteps, listDM_breakStep,
    listDM_driveStep _ _ ((drivingHours_props rm rh _).2.2.2 h).1, listDM_pickupStep]
  simp [listDrivingMiles]

theorem simDay_ne_nil (day : ℕ) (rm rh : ℚ) (h : 0 < rm) :
    (simDay day rm rh).activities ≠ [] := by
  intro hnil
  have h1 := simDay_listDM day rm rh h
  rw [hnil] at h1
  simp [listDrivingMiles] at h1
  have h2 := simDay_pos_miles day rm rh h
  rw [← h1] at h2
  exact lt_irrefl 0 h2

/-- The dropoff branch only runs when the day's driving brings the
remaining distance within tolerance. -/
theorem simDay_milesDone (day : ℕ) (rm rh : ℚ)
    (h : (simDay day rm rh).milesDone = true) :
    rm - (simDay day rm rh).dailyMiles ≤ 1 / 100 := by
  rw [simDay_dailyMiles]
  simp only [simDay] at h
  unfold dropStep at h
  split_ifs at h with hcond
  exact hcond.1

/-- Every activity of a day is one of the five kinds, and a `driving`
activity lasts `daily_driving_hours ≤ 11`. -/
theorem simDay_mem (day : ℕ) (rm rh : ℚ) (a : Activity)
    (ha : a ∈ (simDay day rm rh).activities) :
    a.type = ActivityType.pickup ∨
    (a.type = ActivityType.driving ∧ actDuration a ≤ 11) ∨
    a.type = ActivityType.brk ∨ a.type = ActivityType.fuel ∨
    a.type = ActivityType.dropoff := by
  simp only [simDay] at ha
  rcases mem_dropStep ha with ha | h
  · rcases mem_fuelSteps _ ha with ha | h
    · rcases mem_breakStep ha with ha | h
      · rcases mem_driveStep ha with ha | ⟨h1, h2, _⟩
        · rcases mem_pickupStep ha with ha | h
          · cases ha
          · exact Or.inl h
        · refine Or.inr (Or.inl ⟨h1, ?_⟩)
          rw [h2]
          exact (drivingHours_props _ _ _).1
      · exact Or.inr (Or.inr (Or.inl h))
    · exact Or.inr (Or.inr (Or.inr (Or.inl h)))
  · exact Or.inr (Or.inr (Or.inr (Or.inr h)))

theorem nFuelStops_zero {dm : ℚ} (h : dm ≤ 660) : nFuelStops dm = 0 := by
  unfold nFuelStops
  split_ifs with hp
  · have h1 : Int.floor (dm / 1000) = 0 := by
      rw [Int.floor_eq_zero_iff]
      constructor
      · positivity
      · rw [div_lt_one (by norm_num)]
        linarith
    rw [h1]
    rfl
  · rfl

/-- No day ever contains a `fuel` activity: `daily_miles ≤ 660 < 1000`, so
`fuel_stops = int(daily_miles / 1000) = 0`. -/
theorem simDay_no_fuel (day : ℕ) (rm rh : ℚ) (a : Activity)
    (ha : a ∈ (simDay day rm rh).activities) : a.type ≠ ActivityType.fuel := by
  simp only [simDay] at ha
  rw [nFuelStops_zero (drivingHours_props rm rh _).2.2.1] at ha
  rcases mem_dropStep ha with ha | h
  · rcases mem_breakStep ha with ha | h
    · rcases mem_driveStep ha with ha | ⟨h, _⟩
      · rcases mem_pickupStep ha with ha | h
        · cases ha
        · simp [h]
      · simp [h]
    · simp [h]
  · simp [h]

/-! ### Renumbering facts -/

theorem renumberFrom_length (n : ℕ) (l : List DayLog) :
    (renumberFrom n l).length = l.length := by
  induction l generalizing n with
  | nil => rfl
  | cons lg ls ih => simp [renumberFrom, ih]

theorem renumberFrom_day_get (l : List DayLog) :
    ∀ (n i : ℕ) (hi : i < (renumberFrom n l).length),
      ((renumberFrom n l).get ⟨i, hi⟩).day = n + i + 1 := by
  induction l with
  | nil =>
    intro n i hi
    simp [renumberFrom] at hi
  | cons lg ls ih =>
    intro n i hi
    cases i with
    | zero => rfl
    | succ j =>
      have hj : j < (renumberFrom (n + 1) ls).length := by
        simpa [renumberFrom] using hi
      have h2 := ih (n + 1) j hj
      show ((renumberFrom (n + 1) ls).get ⟨j, hj⟩).day = n + (j + 1) + 1
      rw [h2]
      ring

theorem mem_renumberFrom {lg : DayLog} :
    ∀ (n : ℕ) (l : List DayLog), lg ∈ renumberFrom n l →
      ∃ lg2 ∈ l, lg.activities = lg2.activities := by
  intro n l
  induction l generalizing n with
  | nil => intro h; cases h
  | cons b bs ih =>
    intro h
    rcases List.mem_cons.mp h with rfl | h2
    · exact ⟨b, List.mem_cons_self _ _, rfl⟩
    · obtain ⟨lg2, hm, he⟩ := ih (n + 1) h2
      exact ⟨lg2, List.mem_cons_of_mem _ hm, he⟩

theorem drivingMiles_cons (lg : DayLog) (l : List DayLog) :
    drivingMiles (lg :: l) = listDrivingMiles lg.activities + drivingMiles l := by
  simp [drivingMiles]

theorem drivingMiles_append (l1 l2 : List DayLog) :
    drivingMiles (l1 ++ l2) = drivingMiles l1 + drivingMiles l2 := by
  simp [drivingMiles]

theorem drivingMiles_renumberFrom (n : ℕ) (l : List DayLog) :
    drivingMiles (renumberFrom n l) = drivingMiles l := by
  induction l generalizing n with
  | nil => rfl
  | cons b bs ih =>
    show drivingMiles (⟨n + 1, b.activities⟩ :: renumberFrom (n + 1) bs) = _
    rw [drivingMiles_cons, drivingMiles_cons, ih]

/-! ### Loop invariants -/

/-- Every successful run of the loop returns the input prefix extended by
day logs each of which is a day produced by `simDay` under the loop
condition, then renumbered. -/
theorem loop_ok_shape (fuel : ℕ) :
    ∀ (rm rh : ℚ) (day : ℕ) (logs out : List DayLog),
      loop fuel rm rh day logs = Except.ok out →
      ∃ tail, out = renumberFrom 0 (logs ++ tail) ∧
        ∀ lg ∈ tail, ∃ d r hh, 1 / 100 < r ∧ 0 < hh ∧
          lg.activities = (simDay d r hh).activities := by
  induction fuel with
  | zero =>
    intro rm rh day logs out hok
    rw [loop] at hok
    by_cases h1 : 1 / 100 < rm ∧ 0 < rh
    · rw [if_pos h1] at hok
      exact absurd hok (by simp)
    · rw [if_neg h1] at hok
      by_cases h3 : 1 / 100 < rm
      · rw [if_pos h3] at hok
        exact absurd hok (by simp)
      · rw [if_neg h3] at hok
        refine ⟨[], ?_, by simp⟩
        rw [List.append_nil]
        exact (Except.ok.inj hok).symm
  | succ f ih =>
    intro rm rh day logs out hok
    rw [loop] at hok
    by_cases h1 : 1 / 100 < rm ∧ 0 < rh
    · rw [if_pos h1] at hok
      by_cases h2 : 100 ≤ day
      · rw [if_pos h2] at hok
        exact absurd hok (by simp)
      · rw [if_neg h2] at hok
        obtain ⟨tail, htail, hprop⟩ := ih _ _ _ _ _ hok
        by_cases hne : (simDay day rm rh).activities.isEmpty = true
        · refine ⟨tail, ?_, hprop⟩
          unfold dayAppend at htail
          rwa [if_pos hne] at htail
        · refine ⟨⟨day + 1, (simDay day rm rh).activities⟩ :: tail, ?_, ?_⟩
          · unfold dayAppend at htail
            rw [if_neg hne, List.append_assoc, List.singleton_append] at htail
            exact htail
          · intro lg hlg
            rcases List.mem_cons.mp hlg with rfl | h
            · exact ⟨day, rm, rh, h1.1, h1.2, rfl⟩
            · exact hprop lg h
    · rw [if_neg h1] at hok
      by_cases h3 : 1 / 100 < rm
      · rw [if_pos h3] at hok
        exact absurd hok (by simp)
      · rw [if_neg h3] at hok
        refine ⟨[], ?_, by simp⟩
        rw [List.append_nil]
        exact (Except.ok.inj hok).symm

/-- Distance accounting: a successful run adds exactly
`remaining_miles - leftover` driving miles, `0 ≤ leftover ≤ 0.01`. -/
theorem loop_driving (fuel : ℕ) :
    ∀ (rm rh : ℚ) (day : ℕ) (logs out : List DayLog), 0 ≤ rm →
      loop fuel rm rh day logs = Except.ok out →
      ∃ leftover, 0 ≤ leftover ∧ leftover ≤ 1 / 100 ∧ leftover ≤ rm ∧
        drivingMiles out = drivingMiles logs + rm - leftover := by
  induction fuel with
  | zero =>
    intro rm rh day logs out hrm hok
    rw [loop] at hok
    by_cases h1 : 1 / 100 < rm ∧ 0 < rh
    · rw [if_pos h1] at hok
      exact absurd hok (by simp)
    · rw [if_neg h1] at hok
      by_cases h3 : 1 / 100 < rm
      · rw [if_pos h3] at hok
        exact absurd hok (by simp)
      · rw [if_neg h3] at hok
        push_neg at h3
        refine ⟨rm, hrm, h3, le_refl rm, ?_⟩
        rw [← Except.ok.inj hok, drivingMiles_renumberFrom]
        ring
  | succ f ih =>
    intro rm rh day logs out hrm hok
    rw [loop] at hok
    by_cases h1 : 1 / 100 < rm ∧ 0 < rh
    · rw [if_pos h1] at hok
      by_cases h2 : 100 ≤ day
      · rw [if_pos h2] at hok
        exact absurd hok (by simp)
      · rw [if_neg h2] at hok
        have hrm0 : 0 < rm := lt_trans (by norm_num) h1.1
        have hmle := simDay_miles_le day rm rh
        have hmpos := simDay_pos_miles day rm rh hrm0
        obtain ⟨lv, hlv0, hlv1, hlv2, hsum⟩ := ih _ _ _ _ _ (le_max_right _ _) hok
        have hda : drivingMiles (dayAppend day (simDay day rm rh) logs)
            = drivingMiles logs + (simDay day rm rh).dailyMiles := by
          unfold dayAppend
          rw [if_neg (by
            simp only [List.isEmpty_iff]
            exact simDay_ne_nil day rm rh hrm0)]
          rw [drivingMiles_append, drivingMiles_cons]
          show _ = drivingMiles logs + _
          rw [simDay_listDM day rm rh hrm0]
          simp [drivingMiles]
        rw [hda] at hsum
        by_cases hdone : (simDay day rm rh).milesDone = true
        · rw [if_pos hdone] at hsum hlv2
          rw [max_eq_right
            (by linarith : (0 : ℚ) - (simDay day rm rh).dailyMiles ≤ 0)] at hsum hlv2
          have hlv00 : lv = 0 := le_antisymm hlv2 hlv0
          rw [hlv00] at hsum
          refine ⟨rm - (simDay day rm rh).dailyMiles, by linarith,
            simDay_milesDone day rm rh hdone, by linarith, by rw [hsum]; ring⟩
        · rw [if_neg hdone] at hsum hlv2
          rw [max_eq_left
            (by linarith : (0 : ℚ) ≤ rm - (simDay day rm rh).dailyMiles)] at hsum hlv2
          refine ⟨lv, hlv0, hlv1, by linarith, by rw [hsum]; ring⟩
    · rw [if_neg h1] at hok
      by_cases h3 : 1 / 100 < rm
      · rw [if_pos h3] at hok
        exact absurd hok (by simp)
      · rw [if_neg h3] at hok
        push_neg at h3
        refine ⟨rm, hrm, h3, le_refl rm, ?_⟩
        rw [← Except.ok.inj hok, drivingMiles_renumberFrom]
        ring

/-- A successful run returns at most `fuel` additional day logs. -/
theorem loop_length (fuel : ℕ) :
    ∀ (rm rh : ℚ) (day : ℕ) (logs out : List DayLog),
      loop fuel rm rh day logs = Except.ok out →
      out.length ≤ logs.length + fuel := by
  induction fuel with
  | zero =>
    intro rm rh day logs out hok
    rw [loop] at hok
    by_cases h1 : 1 / 100 < rm ∧ 0 < rh
    · rw [if_pos h1] at hok
      exact absurd hok (by simp)
    · rw [if_neg h1] at hok
      by_cases h3 : 1 / 100 < rm
      · rw [if_pos h3] at hok
        exact absurd hok (by simp)
      · rw [if_neg h3] at hok
        rw [← Except.ok.inj hok, renumberFrom_length]
        omega
  | succ f ih =>
    intro rm rh day logs out hok
    rw [loop] at hok
    by_cases h1 : 1 / 100 < rm ∧ 0 < rh
    · rw [if_pos h1] at hok
      by_cases h2 : 100 ≤ day
      · rw [if_pos h2] at hok
        exact absurd hok (by simp)
      · rw [if_neg h2] at hok
        have h := ih _ _ _ _ _ hok
        have hlen : (dayAppend day (simDay day rm rh) logs).length ≤ logs.length + 1 := by
          unfold dayAppend
          split_ifs <;> simp [List.length_append]
        omega
    · rw [if_neg h1] at hok
      by_cases h3 : 1 / 100 < rm
      · rw [if_pos h3] at hok
        exact absurd hok (by simp)
      · rw [if_neg h3] at hok
        rw [← Except.ok.inj hok, renumberFrom_length]
        omega

/-- Unpacking a successful `generate_eld_logs` run: both route fields were
present, some cycle budget remained, and the loop ran from a fresh state. -/
theorem generate_ok_loop (rd : RouteData) (chu : ℚ) (out : List DayLog)
    (h : generate_eld_logs rd chu = Except.ok out) :
    ∃ d du, rd.distance_miles = Option.some d ∧ rd.duration_hours = Option.some du ∧
      0 < 70 - chu ∧ loop 100 d (70 - chu) 0 [] = Except.ok out := by
  obtain ⟨dm?, du?⟩ := rd
  cases dm? with
  | none => exact absurd h (by simp [generate_eld_logs])
  | some d =>
    cases du? with
    | none => exact absurd h (by simp [generate_eld_logs])
    | some du =>
      simp only [generate_eld_logs] at h
      split_ifs at h with hneg
      push_neg at hneg
      exact ⟨d, du, rfl, rfl, by linarith, h⟩

example : round1 (5 / 6) = 4 / 5 := by with_unfolding_all rfl
example : drivingHours 50 69 1 = (4 / 5, 48) := by with_unfolding_all rfl
example : (simDay 0 50 70).dailyMiles = 48 := by with_unfolding_all rfl

/-! ### The claims -/

/-- C1: Distance conservation — whenever `generate_eld_logs` returns a
result for a route (`distance_miles ≥ 0`, per the data model), the sum of
`miles` over all `driving` activities equals the input distance to within
0.01 mile. -/
theorem c1_distance_conservation (d du chu : ℚ) (out : List DayLog) (hd : 0 ≤ d)
    (h : generate_eld_logs ⟨Option.some d, Option.some du⟩ chu = Except.ok out) :
    |drivingMiles out - d| ≤ 1 / 100 := by
  obtain ⟨d2, du2, hd2, _, _, hloop⟩ := generate_ok_loop _ _ _ h
  obtain rfl : d = d2 := Option.some.inj hd2
  obtain ⟨lv, hlv0, hlv1, _, hsum⟩ := loop_driving 100 d _ 0 [] out hd hloop
  have hnil : drivingMiles ([] : List DayLog) = 0 := rfl
  rw [hnil] at hsum
  rw [hsum, show (0 : ℚ) + d - lv - d = -lv by ring, abs_neg, abs_of_nonneg hlv0]
  exact hlv1

/-- Witness for C1 at the Scenario-A input. -/
theorem c1_witness :
    (0 : ℚ) ≤ 50 ∧
      |drivingMiles (okLogs (generate_eld_logs ⟨Option.some 50, Option.some 1⟩ 0)) - 50|
        ≤ 1 / 100 :=
  ⟨by norm_num,
    c1_distance_conservation 50 1 0
      (okLogs (generate_eld_logs ⟨Option.some 50, Option.some 1⟩ 0))
      (by norm_num) (by with_unfolding_all rfl)⟩

/-- C2 counterexample: at the Scenario-A input the code returns two
day-logs, not one, because `round(50/60, 1) = 0.8` caps day 1 at 48 miles
and the leftover 2 miles force a second day. -/
theorem c2_counterexample :
    generate_eld_logs ⟨Option.some 50, Option.some 1⟩ 0 = Except.ok c2Out ∧
      c2Out.length ≠ 1 :=
  ⟨by with_unfolding_all rfl, by norm_num [c2Out]⟩

/-- C2 amended: Scenario A returns exactly the two-day plan `c2Out` —
day 1 has pickup 08:00–09:00 and a 48-mile drive 09:00–09:48, day 2 has a
2-mile drive 08:00–08:02 and the dropoff — with no `break` and no `fuel`
activity. -/
theorem c2_amended_scenarioA :
    generate_eld_logs ⟨Option.some 50, Option.some 1⟩ 0 = Except.ok c2Out ∧
      ∀ lg ∈ c2Out, ∀ a ∈ lg.activities,
        a.type ≠ ActivityType.brk ∧ a.type ≠ ActivityType.fuel :=
  ⟨by with_unfolding_all rfl, of_decide_eq_true (by with_unfolding_all rfl)⟩

/-- C3: Cycle exhaustion boundary — for any route fields, a used cycle of
70 hours or more fails immediately with the no-remaining-hours error
(raised before the loop, so no partial result exists). -/
theorem c3_cycle_exhaustion (d du chu : ℚ) (h : 70 ≤ chu) :
    generate_eld_logs ⟨Option.some d, Option.some du⟩ chu =
      Except.error ⟨ExcClass.valueError, noRemainingMsg⟩ := by
  simp only [generate_eld_logs]
  rw [if_pos (by linarith)]

/-- Witness for C3 at the boundary `cycle_hours_used = 70`. -/
theorem c3_witness :
    (70 : ℚ) ≤ 70 ∧
      generate_eld_logs ⟨Option.some 5000, Option.some 80⟩ 70 =
        Except.error ⟨ExcClass.valueError, noRemainingMsg⟩ :=
  ⟨le_refl 70, c3_cycle_exhaustion 5000 80 70 (le_refl 70)⟩

/-- C4 counterexample: the missing-field failure and the infeasibility
failure surface the same exception class (the single generic
`ValueError`), so the two failure kinds ARE collapsed into one generic
error, contrary to the claim; they differ only in message. -/
theorem c4_counterexample :
    errClass (generate_eld_logs ⟨Option.none, Option.some 1⟩ 0) =
        Option.some ExcClass.valueError ∧
      errClass (generate_eld_logs ⟨Option.some 5, Option.some 1⟩ 75) =
        Option.some ExcClass.valueError ∧
      errClass (generate_eld_logs ⟨Option.none, Option.some 1⟩ 0) =
        errClass (generate_eld_logs ⟨Option.some 5, Option.some 1⟩ 75) :=
  ⟨rfl, by with_unfolding_all rfl, by with_unfolding_all rfl⟩

/-- C4 amended: a missing `distance_miles` or `duration_hours` fails
immediately with the generic `ValueError` kind carrying an
`Invalid route data: missing ...` message, and the infeasibility failure
carries a different message of the same single kind — the failures are
distinguishable only by message string, not by exception kind. -/
theorem c4_amended_error_classification (d du2 chu chu2 : ℚ) (du : Option ℚ)
    (h : 70 ≤ chu2) :
    generate_eld_logs ⟨Option.none, du⟩ chu =
        Except.error ⟨ExcClass.valueError, missingDistanceMsg⟩ ∧
      generate_eld_logs ⟨Option.some d, Option.none⟩ chu =
        Except.error ⟨ExcClass.valueError, missingDurationMsg⟩ ∧
      generate_eld_logs ⟨Option.some d, Option.some du2⟩ chu2 =
        Except.error ⟨ExcClass.valueError, noRemainingMsg⟩ ∧
      missingDistanceMsg ≠ noRemainingMsg ∧ missingDurationMsg ≠ noRemainingMsg := by
  refine ⟨rfl, rfl, ?_, ?_, ?_⟩
  · simp only [generate_eld_logs]
    rw [if_pos (by linarith)]
  · decide
  · decide

/-- Witness for C4 at concrete inputs. -/
theorem c4_witness :
    (70 : ℚ) ≤ 75 ∧
      (generate_eld_logs ⟨Option.none, Option.some 1⟩ 0 =
          Except.error ⟨ExcClass.valueError, missingDistanceMsg⟩ ∧
        generate_eld_logs ⟨Option.some 5, Option.none⟩ 0 =
          Except.error ⟨ExcClass.valueError, missingDurationMsg⟩ ∧
        generate_eld_logs ⟨Option.some 5, Option.some 1⟩ 75 =
          Except.error ⟨ExcClass.valueError, noRemainingMsg⟩ ∧
        missingDistanceMsg ≠ noRemainingMsg ∧ missingDurationMsg ≠ noRemainingMsg) :=
  ⟨by norm_num, c4_amended_error_classification 5 1 0 75 (Option.some 1) (by norm_num)⟩

/-- C5: with only half a cycle hour left (`cycle_hours_used = 69.5`) the
code still returns a successful plan whose on-duty time (1 h pickup +
5/60 h driving = 13/12 h) exceeds the remaining budget of 1/2 h, and the
plan completes without any dropoff activity. -/
theorem c5_budget_overrun :
    generate_eld_logs ⟨Option.some 5, Option.some 1⟩ (139 / 2) = Except.ok c5Out ∧
      70 - 139 / 2 < totalDuration c5Out ∧
      ∀ lg ∈ c5Out, ∀ a ∈ lg.activities, a.type ≠ ActivityType.dropoff :=
  ⟨by with_unfolding_all rfl,
    by norm_num [c5Out, totalDuration, actDuration],
    of_decide_eq_true (by with_unfolding_all rfl)⟩

/-- C6: Driving cap — in every returned plan, no `driving` activity spans
more than 11 hours. -/
theorem c6_driving_cap (rd : RouteData) (chu : ℚ) (out : List DayLog)
    (h : generate_eld_logs rd chu = Except.ok out) :
    ∀ lg ∈ out, ∀ a ∈ lg.activities,
      a.type = ActivityType.driving → actDuration a ≤ 11 := by
  obtain ⟨d, du, _, _, _, hloop⟩ := generate_ok_loop rd chu out h
  obtain ⟨tail, hout, hprop⟩ := loop_ok_shape 100 _ _ _ _ _ hloop
  intro lg hlg a ha htype
  rw [hout] at hlg
  obtain ⟨lg2, hlg2, hacts⟩ := mem_renumberFrom _ _ hlg
  rw [List.nil_append] at hlg2
  obtain ⟨dd, rr, hh, _, _, hact2⟩ := hprop lg2 hlg2
  rw [hacts, hact2] at ha
  rcases simDay_mem dd rr hh a ha with h1 | ⟨_, h2⟩ | h1 | h1 | h1
  · rw [htype] at h1; simp at h1
  · exact h2
  · rw [htype] at h1; simp at h1
  · rw [htype] at h1; simp at h1
  · rw [htype] at h1; simp at h1

/-- Witness for C6 at the Scenario-A input. -/
theorem c6_witness :
    generate_eld_logs ⟨Option.some 50, Option.some 1⟩ 0 =
        Except.ok (okLogs (generate_eld_logs ⟨Option.some 50, Option.some 1⟩ 0)) ∧
      ∀ lg ∈ okLogs (generate_eld_logs ⟨Option.some 50, Option.some 1⟩ 0),
        ∀ a ∈ lg.activities, a.type = ActivityType.driving → actDuration a ≤ 11 :=
  ⟨by with_unfolding_all rfl,
    c6_driving_cap ⟨Option.some 50, Option.some 1⟩ 0
      (okLogs (generate_eld_logs ⟨Option.some 50, Option.some 1⟩ 0))
      (by with_unfolding_all rfl)⟩

/-- C7: Non-overlap — within every returned day-log the activities are
sorted by `start`, each has `end ≥ start`, and each starts no earlier
than its predecessor ends. -/
theorem c7_non_overlap (rd : RouteData) (chu : ℚ) (out : List DayLog)
    (h : generate_eld_logs rd chu = Except.ok out) :
    ∀ lg ∈ out,
      List.Pairwise (fun a b => a.start ≤ b.start) lg.activities ∧
        (∀ a ∈ lg.activities, a.start ≤ a.stop) ∧
        List.Chain' (fun a b => a.stop ≤ b.start) lg.activities := by
  obtain ⟨d, du, _, _, _, hloop⟩ := generate_ok_loop rd chu out h
  obtain ⟨tail, hout, hprop⟩ := loop_ok_shape 100 _ _ _ _ _ hloop
  intro lg hlg
  rw [hout] at hlg
  obtain ⟨lg2, hlg2, hacts⟩ := mem_renumberFrom _ _ hlg
  rw [List.nil_append] at hlg2
  obtain ⟨dd, rr, hh, _, _, hact2⟩ := hprop lg2 hlg2
  rw [hacts, hact2]
  obtain ⟨t, hchain⟩ := simDay_chain dd rr hh
  exact ⟨chainTo_pairwise hchain, chainTo_le_stop hchain, chainTo_chain' hchain⟩

/-- Witness for C7 at a concrete feasible input. -/
theorem c7_witness :
    generate_eld_logs ⟨Option.some 5, Option.some 1⟩ (139 / 2) =
        Except.ok (okLogs (generate_eld_logs ⟨Option.some 5, Option.some 1⟩ (139 / 2))) ∧
      ∀ lg ∈ okLogs (generate_eld_logs ⟨Option.some 5, Option.some 1⟩ (139 / 2)),
        List.Pairwise (fun a b => a.start ≤ b.start) lg.activities ∧
          (∀ a ∈ lg.activities, a.start ≤ a.stop) ∧
          List.Chain' (fun a b => a.stop ≤ b.start) lg.activities :=
  ⟨by with_unfolding_all rfl,
    c7_non_overlap ⟨Option.some 5, Option.some 1⟩ (139 / 2)
      (okLogs (generate_eld_logs ⟨Option.some 5, Option.some 1⟩ (139 / 2)))
      (by with_unfolding_all rfl)⟩

/-- C8: Bounded termination — `generate_eld_logs` is a total function in
this embedding (the loop recurses on the structural bound `100 - day`),
every successful plan has at most 100 day-logs, and once `current_day`
reaches 100 with distance and hours still remaining, the loop fails with
the too-many-days error instead of iterating further. -/
theorem c8_bounded_termination (rd : RouteData) (chu : ℚ) :
    (∀ out, generate_eld_logs rd chu = Except.ok out → out.length ≤ 100) ∧
      (∀ (fuel : ℕ) (rm rh : ℚ) (logs : List DayLog), 1 / 100 < rm → 0 < rh →
        loop fuel rm rh 100 logs = Except.error ⟨ExcClass.valueError, tooManyDaysMsg⟩) := by
  constructor
  · intro out h
    obtain ⟨d, du, _, _, _, hloop⟩ := generate_ok_loop rd chu out h
    have h2 := loop_length 100 _ _ _ _ _ hloop
    simpa using h2
  · intro fuel rm rh logs hrm hrh
    cases fuel with
    | zero =>
      rw [loop, if_pos ⟨hrm, hrh⟩]
    | succ f =>
      rw [loop, if_pos ⟨hrm, hrh⟩, if_pos (le_refl 100)]

/-- Witness for C8: a successful run with at most 100 days, and the
ceiling error at `current_day = 100`. -/
theorem c8_witness :
    (okLogs (generate_eld_logs ⟨Option.some 50, Option.some 1⟩ 0)).length ≤ 100 ∧
      loop 37 5 1 100 [] = Except.error ⟨ExcClass.valueError, tooManyDaysMsg⟩ :=
  ⟨(c8_bounded_termination ⟨Option.some 50, Option.some 1⟩ 0).1 _ (by with_unfolding_all rfl),
    (c8_bounded_termination ⟨Option.some 50, Option.some 1⟩ 0).2 37 5 1 []
      (by norm_num) (by norm_num)⟩

/-- C9: Day numbering — the returned day-logs are numbered 1..N
contiguously, and no day-log with an empty activity list is emitted. -/
theorem c9_day_numbering (rd : RouteData) (chu : ℚ) (out : List DayLog)
    (h : generate_eld_logs rd chu = Except.ok out) :
    (∀ (i : ℕ) (hi : i < out.length), (out.get ⟨i, hi⟩).day = i + 1) ∧
      ∀ lg ∈ out, lg.activities ≠ [] := by
  obtain ⟨d, du, _, _, _, hloop⟩ := generate_ok_loop rd chu out h
  obtain ⟨tail, hout, hprop⟩ := loop_ok_shape 100 _ _ _ _ _ hloop
  rw [List.nil_append] at hout
  constructor
  · intro i hi
    subst hout
    have h2 := renumberFrom_day_get tail 0 i hi
    rw [h2]
    omega
  · intro lg hlg
    rw [hout] at hlg
    obtain ⟨lg2, hlg2, hacts⟩ := mem_renumberFrom _ _ hlg
    obtain ⟨dd, rr, hh, hr, _, hact2⟩ := hprop lg2 hlg2
    rw [hacts, hact2]
    exact simDay_ne_nil dd rr hh (lt_trans (by norm_num) hr)

/-- Witness for C9 at a concrete feasible input. -/
theorem c9_witness :
    generate_eld_logs ⟨Option.some 5, Option.some 1⟩ 0 =
        Except.ok (okLogs (generate_eld_logs ⟨Option.some 5, Option.some 1⟩ 0)) ∧
      ((∀ (i : ℕ) (hi : i < (okLogs (generate_eld_logs ⟨Option.some 5, Option.some 1⟩ 0)).length),
          ((okLogs (generate_eld_logs ⟨Option.some 5, Option.some 1⟩ 0)).get ⟨i, hi⟩).day = i + 1) ∧
        ∀ lg ∈ okLogs (generate_eld_logs ⟨Option.some 5, Option.some 1⟩ 0),
          lg.activities ≠ []) :=
  ⟨by with_unfolding_all rfl,
    c9_day_numbering ⟨Option.some 5, Option.some 1⟩ 0
      (okLogs (generate_eld_logs ⟨Option.some 5, Option.some 1⟩ 0))
      (by with_unfolding_all rfl)⟩

/-- C10: No fuel stop is ever emitted — daily driving is capped at 11 h,
so `daily_miles ≤ 660` and `int(daily_miles / 1000) = 0` on every day. -/
theorem c10_no_fuel (rd : RouteData) (chu : ℚ) (out : List DayLog)
    (h : generate_eld_logs rd chu = Except.ok out) :
    ∀ lg ∈ out, ∀ a ∈ lg.activities, a.type ≠ ActivityType.fuel := by
  obtain ⟨d, du, _, _, _, hloop⟩ := generate_ok_loop rd chu out h
  obtain ⟨tail, hout, hprop⟩ := loop_ok_shape 100 _ _ _ _ _ hloop
  intro lg hlg a ha
  rw [hout] at hlg
  obtain ⟨lg2, hlg2, hacts⟩ := mem_renumberFrom _ _ hlg
  rw [List.nil_append] at hlg2
  obtain ⟨dd, rr, hh, _, _, hact2⟩ := hprop lg2 hlg2
  rw [hacts, hact2] at ha
  exact simDay_no_fuel dd rr hh a ha

/-- Witness for C10 at the Scenario-A input. -/
theorem c10_witness :
    generate_eld_logs ⟨Option.some 50, Option.some 1⟩ 0 =
        Except.ok (okLogs (generate_eld_logs ⟨Option.some 50, Option.some 1⟩ 0)) ∧
      ∀ lg ∈ okLogs (generate_eld_logs ⟨Option.some 50, Option.some 1⟩ 0),
        ∀ a ∈ lg.activities, a.type ≠ ActivityType.fuel :=
  ⟨by with_unfolding_all rfl,
    c10_no_fuel ⟨Option.some 50, Option.some 1⟩ 0
      (okLogs (generate_eld_logs ⟨Option.some 50, Option.some 1⟩ 0))
      (by with_unfolding_all rfl)⟩
example :
    generate_eld_logs ⟨Option.some 50, Option.some 1⟩ 0 =
      Except.ok
        [⟨1, [⟨ActivityType.pickup, 8, 9, 0⟩, ⟨ActivityType.driving, 9, 49 / 5, 48⟩]⟩,
         ⟨2, [⟨ActivityType.driving, 8, 241 / 30, 2⟩,
              ⟨ActivityType.dropoff, 241 / 30, 271 / 30, 0⟩]⟩] := by with_unfolding_all rfl
example :
    generate_eld_logs ⟨Option.some 5, Option.some 1⟩ (139 / 2) =
      Except.ok [⟨1, [⟨ActivityType.pickup, 8, 9, 0⟩, ⟨ActivityType.driving, 9, 109 / 12, 5⟩]⟩] :=
  by with_unfolding_all rfl

end TripPlanner
